import Mathlib

/-!
Verification of the Government-Document-Processor pipeline (`src/app_deploy.py`)
against its natural-language specification.

The embedding models Python strings as Lean `String`s (lists of Unicode scalar
values), fallible Python operations as `Except String α` (the error carries
`str(e)`), and the external collaborators (pdfplumber, PIL, the Gemini client,
`json.dumps` / `json.loads`) as explicit parameters or faithful functional
models of the exact calls the source makes.
-/

namespace GovDoc

/-- Characters removed by Python `str.strip()` (the ASCII whitespace set). -/
def pyIsSpace (c : Char) : Bool :=
  c = ' ' || c = '\t' || c = '\n' || c = '\r' || c = '\x0b' || c = '\x0c'

/-- Python `str.strip()` on a character list: drop trailing whitespace, then
leading whitespace. -/
def pyStripL (cs : List Char) : List Char :=
  ((cs.reverse.dropWhile pyIsSpace).reverse).dropWhile pyIsSpace

/-- Python `str.strip()`. -/
def pyStrip (s : String) : String := ⟨pyStripL s.data⟩

/-- Python `str.lower()`, modelled character-wise (faithful on ASCII, which is
all the suffix test in the source ever compares against). -/
def pyLower (s : String) : String := ⟨s.data.map Char.toLower⟩

/-- Python `str.endswith`. -/
def pyEndsWith (s suf : String) : Bool := suf.data.isSuffixOf s.data

/-- Truthiness of a Python string: non-empty. -/
def pyTruthyStr (s : String) : Bool := !(s == "")

/-- Truthiness of an optional Python string: `None` and `""` are falsy. -/
def pyTruthyOpt : Option String → Bool
  | none => false
  | some s => pyTruthyStr s

/-- A Python `try: body except Exception as e: result = handler(e)` block whose
handler finishes normally: an exception raised by the body is caught and turned
into a normal value. -/
def pyTry {α : Type} (body : Except String α) (handler : String → α) : Except String α :=
  match body with
  | .ok a => .ok a
  | .error e => .ok (handler e)

/-- The fallback line appended for a PDF page with no digital text layer
(`app_deploy.py` line 44). -/
def scannedPlaceholder : String := "[Scanned page - OCR not available in cloud deployment]"

/-- The fixed string returned for an image upload (`app_deploy.py` line 51). -/
def imagePlaceholder : String :=
  "[Image uploaded - OCR processing not available in cloud deployment. Please provide text input instead.]"

/-- Abstract model of the file system together with the two external readers the
source uses.  `pdfOpen` models `pdfplumber.open` followed by iterating
`pdf.pages`: it either raises, or yields for each page the outcome of
`page.extract_text()` (which itself may raise, or return `None` / a string).
`imageOpen` models `PIL.Image.open`, which either raises or succeeds. -/
structure FS where
  pdfOpen : String → Except String (List (Except String (Option String)))
  imageOpen : String → Except String Unit

/-- The page loop of `extract_text_from_pdf` (lines 38-44): for each page, append
the page text plus `"\n"` when the page has a (truthy) text layer, otherwise
append the scanned-page fallback plus `"\n"`; a page whose extraction raises
aborts the loop with that exception. -/
def pdfLoop : List (Except String (Option String)) → String → Except String String
  | [], text => .ok text
  | r :: rs, text =>
    match r with
    | .error e => .error e
    | .ok page_text =>
      if pyTruthyOpt page_text then
        pdfLoop rs (text ++ page_text.getD "" ++ "\n")
      else
        pdfLoop rs (text ++ scannedPlaceholder ++ "\n")

/-- The PDF branch of `extract_text_from_pdf` (lines 36-46): the whole
open-and-read is wrapped in `try/except`, the handler producing
`f"Error reading PDF: {str(e)}"`. -/
def pdfBranch (fs : FS) (file_path : String) : Except String String :=
  pyTry
    (match fs.pdfOpen file_path with
     | .error e => .error e
     | .ok pdf => pdfLoop pdf "")
    (fun e => "Error reading PDF: " ++ e)

/-- The image branch of `extract_text_from_pdf` (lines 47-53): `Image.open` is
attempted inside `try/except`; on success the fixed placeholder is the result,
on exception the handler produces `f"Error reading image: {str(e)}"`. -/
def imageBranch (fs : FS) (file_path : String) : Except String String :=
  pyTry
    (match fs.imageOpen file_path with
     | .error e => .error e
     | .ok _ => .ok imagePlaceholder)
    (fun e => "Error reading image: " ++ e)

/-- `extract_text_from_pdf` (lines 33-54): branch on
`file_path.lower().endswith(".pdf")`, then `return text.strip()`.  The result
type is `Except String String`: an `.error` outcome would mean an exception
escapes to the caller. -/
def extract_text_from_pdf (fs : FS) (file_path : String) : Except String String :=
  (if pyEndsWith (pyLower file_path) ".pdf" then pdfBranch fs file_path
   else imageBranch fs file_path).map pyStrip

/-! ### JSON values, serialization and parsing

The source builds its error fallback with `json.dumps` on a dict of strings and
nested dicts, and re-reads model output with `json.loads`.  We model JSON values
by the fragment the program constructs (strings and objects), `json.dumps` with
its default settings (`ensure_ascii=True`, separators `", "` and `": "`,
`\uXXXX` escapes with surrogate pairs), and `json.loads` by a recursive-descent
parser for that fragment. -/

mutual
inductive Json where
  | str : String → Json
  | obj : JMembers → Json
inductive JMembers where
  | nil : JMembers
  | cons : String → Json → JMembers → JMembers
end

/-- Lowercase hex digit, as emitted by Python `json.dumps` `\uXXXX` escapes. -/
def hexDigitChar (n : Nat) : Char :=
  if n < 10 then Char.ofNat (48 + n) else Char.ofNat (87 + n)

/-- The four hex digits of a code unit `n < 0x10000`. -/
def hexDigits4 (n : Nat) : List Char :=
  [hexDigitChar (n / 4096 % 16), hexDigitChar (n / 256 % 16),
   hexDigitChar (n / 16 % 16), hexDigitChar (n % 16)]

/-- A six-character `\uXXXX` escape for code unit `n < 0x10000`. -/
def escU (n : Nat) : List Char := '\\' :: 'u' :: hexDigits4 n

/-- Escaping of one character inside a JSON string literal, after Python
`json.dumps` with `ensure_ascii=True`: short escapes for `"`/`\\`/control
characters that have them, `\uXXXX` for other controls and all non-ASCII,
surrogate pairs above `0xFFFF`, printable ASCII verbatim. -/
def escChar (c : Char) : List Char :=
  if c = '"' then ['\\', '"']
  else if c = '\\' then ['\\', '\\']
  else if c = '\x08' then ['\\', 'b']
  else if c = '\x0c' then ['\\', 'f']
  else if c = '\n' then ['\\', 'n']
  else if c = '\r' then ['\\', 'r']
  else if c = '\t' then ['\\', 't']
  else if c.toNat < 0x20 then escU c.toNat
  else if c.toNat < 0x7f then [c]
  else if c.toNat < 0x10000 then escU c.toNat
  else
    escU (0xd800 + (c.toNat - 0x10000) / 0x400) ++ escU (0xdc00 + (c.toNat - 0x10000) % 0x400)

def escList (cs : List Char) : List Char := (cs.map escChar).flatten

mutual
/-- `json.dumps` (default settings) of a JSON value, as a character list. -/
def dumpsJ : Json → List Char
  | .str s => '"' :: (escList s.data ++ ['"'])
  | .obj ms => '\x7b' :: (dumpsM ms ++ ['\x7d'])
/-- `json.dumps` of the members of an object, separated by `", "`. -/
def dumpsM : JMembers → List Char
  | .nil => []
  | .cons k v ms =>
    ('"' :: (escList k.data ++ ['"', ':', ' '])) ++ dumpsJ v ++
      ((match ms with | .nil => [] | .cons _ _ _ => [',', ' ']) ++ dumpsM ms)
end

def jsonDumps (v : Json) : String := ⟨dumpsJ v⟩

/-- JSON insignificant whitespace. -/
def isWsChar (c : Char) : Bool := c = ' ' || c = '\t' || c = '\n' || c = '\r'

def skipWs : List Char → List Char
  | [] => []
  | c :: l => if isWsChar c then skipWs l else c :: l

def hexVal (c : Char) : Option Nat :=
  if '0' ≤ c ∧ c ≤ '9' then some (c.toNat - 48)
  else if 'a' ≤ c ∧ c ≤ 'f' then some (c.toNat - 87)
  else if 'A' ≤ c ∧ c ≤ 'F' then some (c.toNat - 55)
  else none

def parseHex4 : List Char → Option (Nat × List Char)
  | a :: b :: c :: d :: rest =>
    match hexVal a, hexVal b, hexVal c, hexVal d with
    | some x, some y, some z, some w => some (x * 4096 + y * 256 + z * 16 + w, rest)
    | _, _, _, _ => none
  | _ => none

/-- Body of a JSON string literal (after the opening quote), with unescaping;
surrogate pairs are recombined, lone surrogates rejected.  Fueled: one unit of
fuel per decoded character. -/
def parseStrBody : Nat → List Char → Option (List Char × List Char)
  | 0, _ => none
  | _ + 1, [] => none
  | f + 1, c :: l =>
    if c = '"' then some ([], l)
    else if c = '\\' then
      match l with
      | [] => none
      | e :: l1 =>
        if e = '"' ∨ e = '\\' ∨ e = '/' then
          (parseStrBody f l1).map (fun p => (e :: p.1, p.2))
        else if e = 'n' then (parseStrBody f l1).map (fun p => ('\n' :: p.1, p.2))
        else if e = 't' then (parseStrBody f l1).map (fun p => ('\t' :: p.1, p.2))
        else if e = 'r' then (parseStrBody f l1).map (fun p => ('\r' :: p.1, p.2))
        else if e = 'b' then (parseStrBody f l1).map (fun p => ('\x08' :: p.1, p.2))
        else if e = 'f' then (parseStrBody f l1).map (fun p => ('\x0c' :: p.1, p.2))
        else if e = 'u' then
          match parseHex4 l1 with
          | none => none
          | some (n, l2) =>
            if 0xd800 ≤ n ∧ n < 0xdc00 then
              match l2 with
              | '\\' :: 'u' :: l3 =>
                match parseHex4 l3 with
                | some (m, l4) =>
                  if 0xdc00 ≤ m ∧ m < 0xe000 then
                    (parseStrBody f l4).map (fun p =>
                      (Char.ofNat (0x10000 + (n - 0xd800) * 0x400 + (m - 0xdc00)) :: p.1, p.2))
                  else none
                | none => none
              | _ => none
            else if 0xdc00 ≤ n ∧ n < 0xe000 then none
            else (parseStrBody f l2).map (fun p => (Char.ofNat n :: p.1, p.2))
        else none
    else (parseStrBody f l).map (fun p => (c :: p.1, p.2))

mutual
/-- Recursive-descent parse of one JSON value (string or object). -/
def parseVal : Nat → List Char → Option (Json × List Char)
  | 0, _ => none
  | f + 1, l =>
    match skipWs l with
    | '"' :: l1 =>
      match parseStrBody f l1 with
      | some (cs, r) => some (.str ⟨cs⟩, r)
      | none => none
    | '\x7b' :: l1 =>
      match skipWs l1 with
      | '\x7d' :: r => some (.obj .nil, r)
      | l2 =>
        match parseMembers f l2 with
        | some (ms, r) => some (.obj ms, r)
        | none => none
    | _ => none

/-- Parse a non-empty member list up to and including the closing brace. -/
def parseMembers : Nat → List Char → Option (JMembers × List Char)
  | 0, _ => none
  | f + 1, l =>
    match l with
    | '"' :: l1 =>
      match parseStrBody f l1 with
      | some (k, r1) =>
        match skipWs r1 with
        | ':' :: r2 =>
          match parseVal f (skipWs r2) with
          | some (v, r3) =>
            match skipWs r3 with
            | ',' :: r4 =>
              match parseMembers f (skipWs r4) with
              | some (ms, r5) => some (.cons ⟨k⟩ v ms, r5)
              | none => none
            | '\x7d' :: r4 => some (.cons ⟨k⟩ v .nil, r4)
            | _ => none
          | none => none
        | _ => none
      | none => none
    | _ => none
end

/-- Model of `json.loads`: parse one value, allow trailing whitespace, reject
trailing data.  The fuel `length + 1` is sufficient for every string the
program serializes (proved below). -/
def jsonLoads (s : String) : Option Json :=
  match parseVal (s.data.length + 1) s.data with
  | some (v, r) => if skipWs r = [] then some v else none
  | none => none

mutual
/-- Fuel sufficient for `parseVal` to consume the serialization of `v`. -/
def jsonFuel : Json → Nat
  | .str s => s.data.length + 2
  | .obj ms => objFuel ms + 1
def objFuel : JMembers → Nat
  | .nil => 1
  | .cons k v ms => k.data.length + jsonFuel v + objFuel ms + 2
end

mutual
/-- First value carried by a field named `k`, searching depth-first. -/
def findField : Json → String → Option Json
  | .str _, _ => none
  | .obj ms, k => findFieldM ms k
def findFieldM : JMembers → String → Option Json
  | .nil, _ => none
  | .cons k1 v ms, k =>
    if k1 = k then some v
    else
      match findField v k with
      | some r => some r
      | none => findFieldM ms k
end

/-! ### The fixed instruction prompt (lines 59-99), transcribed verbatim.
Braces are written `\x7b`/`\x7d` and apostrophes `\x27`; `—` is the em
dash. The pieces mirror the adjacent Python string literals. -/

def prompt : String := String.join
  ["You are an AI that extracts structured data from documents. ",
   "Always output a JSON object strictly in this format:\n\n",
   "\x7b\n",
   "  \"type\": \"object\",\n",
   "  \"properties\": \x7b\n",
   "    \"document_type\": \"<detected type like Aadhaar Card, PAN Card, Passport, Driving License, Marksheet, Invoice, Contract, Text>\",\n",
   "    \"extracted_data\": \x7b ...fields depending on document type OR fallback message only... \x7d\n",
   "  \x7d,\n",
   "  \"compliance_status\": \"<status based on completeness and compliance rules>\",\n",
   "  \"name\": \"response\"\n",
   "\x7d\n\n",
   "### Rules by Document Type ###\n",
   "- Aadhaar Card -> Extract: name, dob, gender, aadhaar_number, Address.\n",
   "- PAN Card -> Extract: name, father\x27s name, dob, Pan number, signature.\n",
   "- Passport -> Extract: name, passport_number, dob, nationality, issue_date, expiry_date.\n",
   "- Driving License -> Extract: name, license_number, dob, issue_date, validity.\n",
   "- Marksheet/Examination Certificate -> Extract: Roll No, exam_type, certificate_number, Candidate Name , Mother Name, Father Name, DOB, School/College Name, Exam Year, Subjects [\x7bSubject, Max Marks, Total Marks, Grade\x7d], Result, Date of Issue, Place, Verification Website.\n",
   "- Invoice -> Extract: invoice_number, date, seller_name, buyer_name, items, total_amount, tax_amount.\n",
   "- Contract -> Extract: contract_id, parties_involved, start_date, end_date, key_terms.\n",
   "- Voter ID -> Extract: name, father_name, dob, gender, voter_id_number, address.\n",
   "- Birth Certificate -> Extract: child_name, father_name, mother_name, dob, place_of_birth, registration_number.\n",
   "- Property Registration -> Extract: owner_name, property_address, registration_number, date_of_registration, registrar_office.\n",
   "- Tax Return: Extract: taxpayer_name, pan_number, assessment_year, income, tax_paid, refund_status.\n",
   "- Income Certificate -> Extract: Certificate_number, Applicant_name, Father\x27s_name, Address, Annual_income, Issue_date, Validity, Issuing_authority.\n",
   "### Rules for compliance_status ###\n",
   "- If all fields are present -> \x27compliant\x27.\n",
   "- If document fields are fully extracted and valid -> \x27Data extracted successfully for regulatory review.\x27\n",
   "- If some fields are missing/unclear -> \x27Partial data extracted — further verification required.\x27\n",
   "- If document type is unrecognized -> \x27Document type not identified — manual review required.\x27\n",
   "- If sensitive data mismatch detected -> \x27Data format issue — needs correction.\x27\n",
   "- If type not identified but text present (non-document) ->\n",
   "  document_type=\x27text\x27,\n",
   "  extracted_data=\x7b\"message\": \"It appears that the input was minimal or unrelated to a document. Please provide a proper document.\"\x7d,\n",
   "  compliance_status=\x27N/A\x27.\n",
   "### Important ###\n",
   "- Detect document type first.\n",
   "- Never invent or hallucinate fields.\n",
   "- If input is non-document text, only return the fallback message under extracted_data.\n",
   "- Output JSON only. Never include explanations outside JSON."]

/-- The fallback value built at lines 105-113 when the Gemini call raises an
exception whose `str` is `e`. -/
def errJson (e : String) : Json :=
  .obj (.cons "type" (.str "object")
    (.cons "properties" (.obj
        (.cons "document_type" (.str "error")
          (.cons "extracted_data" (.obj (.cons "error" (.str ("API Error: " ++ e)) .nil))
            .nil)))
      (.cons "compliance_status" (.str "Error occurred during processing")
        (.cons "name" (.str "response") .nil))))

/-- `extract_json_from_text` (lines 57-113): send the fixed prompt together with
the input text to the remote model (`remote` models `generate_content` plus the
`.text.strip()` access: a response string or a raised exception); on success
return the stripped response, on any exception return the serialized fallback
object. -/
def extract_json_from_text (remote : String → String → Except String String)
    (extracted_text : String) : String :=
  match remote prompt extracted_text with
  | .ok response_text => pyStrip response_text
  | .error e => jsonDumps (errJson e)

/-- What the AI-response area shows. -/
inductive Display where
  | jsonView : Json → Display
  | rawText : String → Display

/-- Lines 149-152: `st.json(json.loads(json_result))` inside `try`, falling back
to `st.text(json_result)` on any exception (in particular a JSON parse error). -/
def displayResult (json_result : String) : Display :=
  match jsonLoads json_result with
  | some v => .jsonView v
  | none => .rawText json_result

/-- An uploaded file as Streamlit hands it to the handler: a file name and a
declared MIME type. -/
structure UploadedFile where
  name : String
  type : String

/-- The inputs the button handler reads: the two widgets plus the external
collaborators. -/
structure Ctx where
  fs : FS
  remote : String → String → Except String String
  text_input : String
  uploaded_file : Option UploadedFile

/-- Observable outcome of one press of the process button. -/
structure HandlerResult where
  extractedPreview : Option String
  remoteCalls : List String
  display : Option Display
  warned : Bool

/-- The process-button handler (lines 124-154).  `remoteCalls` records each text
passed to `extract_json_from_text`, `extractedPreview` the preview text area,
`warned` the `st.warning` call.  Saving the upload under
`os.path.join("uploads", name)` is the `"uploads/" ++ name` path. -/
def process_button (ctx : Ctx) : Except String HandlerResult := do
  let extracted_text ←
    match ctx.uploaded_file with
    | some f =>
      let file_path := "uploads/" ++ f.name
      if f.type = "application/pdf" then
        extract_text_from_pdf ctx.fs file_path
      else if f.type = "image/png" ∨ f.type = "image/jpeg" then
        extract_text_from_pdf ctx.fs file_path
      else
        pure ""
    | none =>
      pure (if pyTruthyStr (pyStrip ctx.text_input) then pyStrip ctx.text_input else "")
  if pyTruthyStr extracted_text then
    let json_result := extract_json_from_text ctx.remote extracted_text
    pure { extractedPreview := some extracted_text
           remoteCalls := [extracted_text]
           display := some (displayResult json_result)
           warned := false }
  else
    pure { extractedPreview := none
           remoteCalls := []
           display := none
           warned := true }

/-- Outcome of the module-level startup check. -/
inductive Startup where
  | halted
  | running (api_key : String)

/-- Lines 16-21: `API_KEY = os.getenv("GEMINI_API_KEY", None)`, then
`if not API_KEY:` show an error and `st.stop()`, else
`genai.configure(api_key=API_KEY)`. -/
def startup (env : Option String) : Startup :=
  match env with
  | none => .halted
  | some k => if pyTruthyStr k then .running k else .halted

/-! ### Prompt structure, for the enumeration claim -/

/-- Split a character list at newlines (separators dropped). -/
def splitLines : List Char → List (List Char)
  | [] => [[]]
  | c :: cs =>
    if c = '\n' then [] :: splitLines cs
    else
      match splitLines cs with
      | l :: ls => (c :: l) :: ls
      | [] => [[c]]

def promptLines : List (List Char) := splitLines prompt.data

def typeHeader : List Char := "### Rules by Document Type ###".data
def statusHeader : List Char := "### Rules for compliance_status ###".data
def importantHeader : List Char := "### Important ###".data

/-- The per-document-type rule lines: lines strictly between the two rule
headers that start with `"- "`. -/
def docTypeRuleLines : List (List Char) :=
  (((promptLines.dropWhile (fun l => !(l == typeHeader))).drop 1).takeWhile
      (fun l => !(l == statusHeader))).filter
    (fun l => "- ".data.isPrefixOf l)

/-- The compliance-status bullets: lines of the compliance section that start
with `"- "`. -/
def complianceBullets : List (List Char) :=
  (((promptLines.dropWhile (fun l => !(l == statusHeader))).drop 1).takeWhile
      (fun l => !(l == importantHeader))).filter
    (fun l => "- ".data.isPrefixOf l)

/-- The document-type names the specification enumerates. -/
def twelveTypes : List String :=
  ["Aadhaar Card", "PAN Card", "Passport", "Driving License", "Marksheet",
   "Invoice", "Contract", "Voter ID", "Birth Certificate",
   "Property Registration", "Tax Return", "Income Certificate"]

/-- `pat` occurs as a contiguous run inside the second list. -/
def seqContains (pat : List Char) : List Char → Bool
  | [] => pat.isPrefixOf []
  | c :: t => pat.isPrefixOf (c :: t) || seqContains pat t

/-! ### Helper definitions and lemmas: strings and the page loop -/

/-- The line the page loop contributes for one page: the page text when the
page has a truthy text layer, the scanned-page fallback otherwise. -/
def pageLine (pt : Option String) : String :=
  if pyTruthyOpt pt then pt.getD "" else scannedPlaceholder

/-- Concatenation of the given lines, each followed by a newline. -/
def catNL (ts : List String) : String := ts.foldr (fun t r => t ++ "\n" ++ r) ""

/-- The separator-prefixed tail of `String.intercalate`. -/
def catSep (sep : String) (ts : List String) : String :=
  ts.foldr (fun t r => sep ++ (t ++ r)) ""

theorem pyTry_isOk {α : Type} (b : Except String α) (h : String → α) :
    ∃ a, pyTry b h = .ok a := by
  cases b <;> exact ⟨_, rfl⟩

theorem pyStrip_append_newline (s : String) : pyStrip (s ++ "\n") = pyStrip s := by
  simp [pyStrip, pyStripL, String.data_append, List.reverse_append, List.dropWhile, pyIsSpace]

theorem intercalate_go_eq (sep : String) :
    ∀ (as : List String) (acc : String),
      String.intercalate.go acc sep as = acc ++ catSep sep as := by
  intro as
  induction as with
  | nil => intro acc; simp [String.intercalate.go, catSep]
  | cons a as ih =>
    intro acc
    simp [String.intercalate.go, catSep, ih, String.append_assoc]

theorem intercalate_cons (sep t : String) (ts : List String) :
    String.intercalate sep (t :: ts) = t ++ catSep sep ts := by
  simp [String.intercalate, intercalate_go_eq]

theorem catNL_cons_eq (ts : List String) :
    ∀ t, catNL (t :: ts) = (t ++ catSep "\n" ts) ++ "\n" := by
  induction ts with
  | nil => intro t; simp [catNL, catSep]
  | cons a as ih =>
    intro t
    have h := ih a
    simp only [catNL, List.foldr] at h ⊢
    rw [h]
    simp [catSep, String.append_assoc]

theorem pyStrip_catNL (ts : List String) :
    pyStrip (catNL ts) = pyStrip (String.intercalate "\n" ts) := by
  cases ts with
  | nil => rfl
  | cons t ts => rw [catNL_cons_eq, pyStrip_append_newline, intercalate_cons]

theorem pdfLoop_map_ok (pts : List (Option String)) :
    ∀ acc, pdfLoop (pts.map .ok) acc = .ok (acc ++ catNL (pts.map pageLine)) := by
  induction pts with
  | nil => intro acc; simp [pdfLoop, catNL]
  | cons pt pts ih =>
    intro acc
    simp only [List.map_cons, pdfLoop]
    by_cases h : pyTruthyOpt pt = true
    · simp [h, ih, catNL, pageLine, String.append_assoc]
    · simp only [Bool.not_eq_true] at h
      simp [h, ih, catNL, pageLine, String.append_assoc]

/-- The PDF branch on a successfully opened PDF whose pages all extract without
raising: the result is the per-page lines, newline-joined and stripped. -/
theorem extract_pdf_pages (fs : FS) (p : String) (pts : List (Option String))
    (hpdf : pyEndsWith (pyLower p) ".pdf" = true)
    (hopen : fs.pdfOpen p = .ok (pts.map .ok)) :
    extract_text_from_pdf fs p =
      .ok (pyStrip (String.intercalate "\n" (pts.map pageLine))) := by
  simp only [extract_text_from_pdf, hpdf, if_pos, pdfBranch, hopen, pdfLoop_map_ok, pyTry,
    Except.map, String.empty_append]
  rw [← pyStrip_catNL]

theorem pyEndsWith_prepend (pre s t : String) (h : pyEndsWith (pyLower s) t = true) :
    pyEndsWith (pyLower (pre ++ s)) t = true := by
  simp only [pyEndsWith, pyLower, String.data_append, List.map_append] at h ⊢
  rw [List.isSuffixOf_iff_suffix] at h ⊢
  exact h.trans (List.suffix_append _ _)

theorem pageLine_some_ne (t : String) (h : t ≠ "") : pageLine (some t) = t := by
  simp [pageLine, pyTruthyOpt, pyTruthyStr, h]

theorem map_pageLine_some (texts : List String) (h : ∀ t ∈ texts, t ≠ "") :
    (texts.map some).map pageLine = texts := by
  rw [List.map_map]
  have hc : ∀ t ∈ texts, (pageLine ∘ some) t = id t := fun t ht =>
    pageLine_some_ne t (h t ht)
  rw [List.map_congr_left hc, List.map_id]

/-! ### Claim C1 -/

/-- A one-page PDF whose page text ends in a space: the final `.strip()`
distinguishes the code from the claim. -/
def fsC1 : FS :=
  { pdfOpen := fun _ => .ok [.ok (some "hello ")]
    imageOpen := fun _ => .error "unused" }

/-- C1, counterexample: on a one-page PDF with page text `"hello "`, the code
returns `"hello"`, not the claimed plain concatenation `"hello "`: the claim as
stated omits the final `text.strip()` of line 54. -/
theorem c1_counterexample :
    extract_text_from_pdf fsC1 "doc.pdf" = .ok "hello" ∧
    String.intercalate "\n" ["hello "] = "hello " ∧
    ("hello" : String) ≠ "hello " :=
  ⟨rfl, by decide, by decide⟩

/-- C1 (amended): for a PDF path all of whose pages extract a non-empty text
layer, the result is the newline-separated concatenation of the page texts in
page order, with surrounding whitespace stripped. -/
theorem c1_text_layer_amended (fs : FS) (p : String) (texts : List String)
    (hpdf : pyEndsWith (pyLower p) ".pdf" = true)
    (hopen : fs.pdfOpen p = .ok (texts.map (fun t => .ok (some t))))
    (hne : ∀ t ∈ texts, t ≠ "") :
    extract_text_from_pdf fs p = .ok (pyStrip (String.intercalate "\n" texts)) := by
  have h1 : texts.map (fun t => (Except.ok (some t) : Except String (Option String))) =
      (texts.map some).map .ok := by
    simp [List.map_map]
  have h2 := extract_pdf_pages fs p (texts.map some) hpdf (by rw [hopen, h1])
  rw [h2, map_pageLine_some texts hne]

/-- A two-page PDF with non-empty page texts, to instantiate `c1_text_layer_amended`. -/
def fsC1w : FS :=
  { pdfOpen := fun _ => .ok [.ok (some "page one"), .ok (some "page two")]
    imageOpen := fun _ => .error "unused" }

theorem c1_witness :
    pyEndsWith (pyLower "Report.PDF") ".pdf" = true ∧
    extract_text_from_pdf fsC1w "Report.PDF" =
      .ok (pyStrip (String.intercalate "\n" ["page one", "page two"])) :=
  ⟨rfl, c1_text_layer_amended fsC1w "Report.PDF" ["page one", "page two"] rfl rfl
    (by decide)⟩

/-! ### Claim C2 -/

/-- A two-page scanned PDF (no text layer on either page). -/
def fsC2 : FS :=
  { pdfOpen := fun _ => .ok [.ok none, .ok none]
    imageOpen := fun _ => .error "unused" }

/-- C2, counterexample: a two-page scanned PDF yields the scanned-page fallback
once per page, newline-joined, which is neither of the two fixed placeholder
strings, so extraction does not "always return the fixed placeholder string". -/
theorem c2_counterexample :
    extract_text_from_pdf fsC2 "scan.pdf" =
      .ok (scannedPlaceholder ++ "\n" ++ scannedPlaceholder) ∧
    scannedPlaceholder ++ "\n" ++ scannedPlaceholder ≠ scannedPlaceholder ∧
    scannedPlaceholder ++ "\n" ++ scannedPlaceholder ≠ imagePlaceholder :=
  ⟨rfl, by decide, by decide⟩

/-- C2 (amended): a scanned PDF that opens successfully yields the scanned-page
fallback once per page, newline-joined (and stripped); an image file that opens
successfully yields exactly the fixed image placeholder, regardless of content.
Open failures instead yield error strings (claim C7). -/
theorem c2_placeholder_amended :
    (∀ (fs : FS) (p : String) (pts : List (Option String)),
        pyEndsWith (pyLower p) ".pdf" = true →
        fs.pdfOpen p = .ok (pts.map .ok) →
        (∀ pt ∈ pts, pyTruthyOpt pt = false) →
        extract_text_from_pdf fs p =
          .ok (pyStrip (String.intercalate "\n"
            (List.replicate pts.length scannedPlaceholder)))) ∧
    (∀ (fs : FS) (p : String),
        pyEndsWith (pyLower p) ".pdf" = false →
        fs.imageOpen p = .ok () →
        extract_text_from_pdf fs p = .ok imagePlaceholder) := by
  constructor
  · intro fs p pts hpdf hopen hfalsy
    rw [extract_pdf_pages fs p pts hpdf hopen]
    have h : pts.map pageLine = List.replicate pts.length scannedPlaceholder := by
      rw [List.map_eq_replicate_iff]
      intro pt hpt
      simp [pageLine, hfalsy pt hpt]
    rw [h]
  · intro fs p hnot hopen
    simp only [extract_text_from_pdf, hnot, Bool.false_eq_true, if_false, imageBranch,
      hopen, pyTry, Except.map]
    have h : pyStrip imagePlaceholder = imagePlaceholder := by decide
    rw [h]

/-- A one-page scanned PDF and a readable image. -/
def fsC2w : FS :=
  { pdfOpen := fun _ => .ok [.ok none]
    imageOpen := fun _ => .ok () }

theorem c2_witness :
    extract_text_from_pdf fsC2w "scan.pdf" =
      .ok (pyStrip (String.intercalate "\n" (List.replicate 1 scannedPlaceholder))) ∧
    extract_text_from_pdf fsC2w "photo.png" = .ok imagePlaceholder :=
  ⟨c2_placeholder_amended.1 fsC2w "scan.pdf" [none] rfl rfl (by decide),
   c2_placeholder_amended.2 fsC2w "photo.png" rfl rfl⟩

/-! ### Claim C7 -/

/-- C7: `extract_text_from_pdf` never lets an exception escape: on every file
system and path the result is `.ok`, and an open failure is converted into the
describing error string of the matching handler. -/
theorem c7_no_exception_escapes :
    ∀ (fs : FS) (p : String),
      (∃ s, extract_text_from_pdf fs p = .ok s) ∧
      (∀ e, pyEndsWith (pyLower p) ".pdf" = true → fs.pdfOpen p = .error e →
          extract_text_from_pdf fs p = .ok (pyStrip ("Error reading PDF: " ++ e))) ∧
      (∀ e, pyEndsWith (pyLower p) ".pdf" = false → fs.imageOpen p = .error e →
          extract_text_from_pdf fs p = .ok (pyStrip ("Error reading image: " ++ e))) := by
  intro fs p
  refine ⟨?_, ?_, ?_⟩
  · unfold extract_text_from_pdf
    by_cases h : pyEndsWith (pyLower p) ".pdf" = true
    · obtain ⟨a, ha⟩ : ∃ a, pdfBranch fs p = .ok a := by
        unfold pdfBranch; exact pyTry_isOk _ _
      exact ⟨pyStrip a, by simp [h, ha, Except.map]⟩
    · simp only [Bool.not_eq_true] at h
      obtain ⟨a, ha⟩ : ∃ a, imageBranch fs p = .ok a := by
        unfold imageBranch; exact pyTry_isOk _ _
      exact ⟨pyStrip a, by simp [h, ha, Except.map]⟩
  · intro e hpdf herr
    simp [extract_text_from_pdf, hpdf, pdfBranch, herr, pyTry, Except.map]
  · intro e hnot herr
    simp [extract_text_from_pdf, hnot, imageBranch, herr, pyTry, Except.map]

/-- A file system on which both readers raise. -/
def fsC7 : FS :=
  { pdfOpen := fun _ => .error "boom"
    imageOpen := fun _ => .error "img" }

theorem c7_witness :
    (∃ s, extract_text_from_pdf fsC7 "x.pdf" = .ok s) ∧
    extract_text_from_pdf fsC7 "x.pdf" = .ok (pyStrip ("Error reading PDF: " ++ "boom")) ∧
    extract_text_from_pdf fsC7 "x.png" = .ok (pyStrip ("Error reading image: " ++ "img")) :=
  ⟨(c7_no_exception_escapes fsC7 "x.pdf").1,
   (c7_no_exception_escapes fsC7 "x.pdf").2.1 "boom" rfl rfl,
   (c7_no_exception_escapes fsC7 "x.png").2.2 "img" rfl rfl⟩

/-! ### Claim C8 -/

/-- C8, counterexample: a *present but empty* `GEMINI_API_KEY` also halts
startup (`if not API_KEY` is taken for the falsy empty string), contradicting
"if it is present, startup proceeds". -/
theorem c8_counterexample : startup (some "") = Startup.halted := rfl

/-- C8 (amended): startup halts iff the environment variable is absent or
empty; with a present non-empty key it proceeds and configures that key. -/
theorem c8_env_key_amended :
    ∀ env : Option String,
      ((env = none ∨ env = some "") → startup env = .halted) ∧
      (∀ k, env = some k → k ≠ "" → startup env = .running k) := by
  intro env
  constructor
  · rintro (rfl | rfl) <;> rfl
  · rintro k rfl hk
    simp [startup, pyTruthyStr, hk]

theorem c8_witness : startup (some "secret-key") = Startup.running "secret-key" :=
  (c8_env_key_amended (some "secret-key")).2 "secret-key" rfl (by decide)

/-! ### Claim C9 -/

/-- C9: with a file uploaded, the handler's entire outcome — in particular the
text sent to the remote model — is unchanged under any replacement of the
text-input box: the typed text is ignored. -/
theorem c9_text_input_ignored (ctx : Ctx) (f : UploadedFile) (t : String)
    (h : ctx.uploaded_file = some f) :
    process_button { ctx with text_input := t } = process_button ctx := by
  obtain ⟨fs, remote, ti, uf⟩ := ctx
  dsimp only at h
  subst h
  rfl

/-- A context with an uploaded PDF and non-empty typed text. -/
def ctxC9 : Ctx :=
  { fs := { pdfOpen := fun _ => .ok [.ok (some "doc body")], imageOpen := fun _ => .error "unused" }
    remote := fun _ _ => .ok "\x7b\x7d"
    text_input := "typed text that must be ignored"
    uploaded_file := some ⟨"a.pdf", "application/pdf"⟩ }

theorem c9_witness :
    process_button { ctxC9 with text_input := "something else" } = process_button ctxC9 :=
  c9_text_input_ignored ctxC9 ⟨"a.pdf", "application/pdf"⟩ "something else" rfl

/-! ### Claim C5 -/

/-- C5: with no upload and whitespace-only text input, the handler performs no
remote call and warns. -/
theorem c5_empty_input_warns (ctx : Ctx) (h1 : ctx.uploaded_file = none)
    (h2 : pyStrip ctx.text_input = "") :
    process_button ctx = .ok ⟨none, [], none, true⟩ := by
  obtain ⟨fs, remote, ti, uf⟩ := ctx
  dsimp only at h1 h2
  subst h1
  simp [process_button, h2, pyTruthyStr, pure, Except.pure, bind, Except.bind]

def ctxC5 : Ctx :=
  { fs := { pdfOpen := fun _ => .error "unused", imageOpen := fun _ => .error "unused" }
    remote := fun _ _ => .error "unused"
    text_input := " \t  "
    uploaded_file := none }

theorem c5_witness : process_button ctxC5 = .ok ⟨none, [], none, true⟩ :=
  c5_empty_input_warns ctxC5 rfl rfl

/-! ### Claim C10 -/

/-- C10: the branch of `extract_text_from_pdf` is chosen solely by the
case-insensitive `".pdf"` suffix of the path — with the suffix the result
depends only on the PDF reader, without it only on the image reader — and the
handler calls the very same function for both image MIME types, so an uploaded
image named `*.pdf` is processed exactly as under the PDF MIME type, through
the PDF branch (the PDF library). -/
theorem c10_branch_by_suffix :
    (∀ (fs1 fs2 : FS) (p : String), fs1.pdfOpen p = fs2.pdfOpen p →
        pyEndsWith (pyLower p) ".pdf" = true →
        extract_text_from_pdf fs1 p = extract_text_from_pdf fs2 p) ∧
    (∀ (fs1 fs2 : FS) (p : String), fs1.imageOpen p = fs2.imageOpen p →
        pyEndsWith (pyLower p) ".pdf" = false →
        extract_text_from_pdf fs1 p = extract_text_from_pdf fs2 p) ∧
    (∀ (ctx : Ctx) (f : UploadedFile), ctx.uploaded_file = some f →
        (f.type = "image/png" ∨ f.type = "image/jpeg") →
        pyEndsWith (pyLower f.name) ".pdf" = true →
        process_button ctx =
          process_button { ctx with uploaded_file := some ⟨f.name, "application/pdf"⟩ } ∧
        extract_text_from_pdf ctx.fs ("uploads/" ++ f.name) =
          (pdfBranch ctx.fs ("uploads/" ++ f.name)).map pyStrip) := by
  refine ⟨?_, ?_, ?_⟩
  · intro fs1 fs2 p h hpdf
    simp only [extract_text_from_pdf, hpdf, if_pos, pdfBranch, h]
  · intro fs1 fs2 p h hnot
    simp only [extract_text_from_pdf, hnot, Bool.false_eq_true, if_false, imageBranch, h]
  · intro ctx f hup htype hsfx
    obtain ⟨fs, remote, ti, uf⟩ := ctx
    dsimp only at hup
    subst hup
    constructor
    · obtain ⟨tp, hpng⟩ : ∃ tp, f = UploadedFile.mk f.name tp := ⟨f.type, rfl⟩
      have hne : f.type ≠ "application/pdf" := by
        rcases htype with h | h <;> rw [h] <;> decide
      simp only [process_button]
      have ht : (f.type = "application/pdf") = False := by simp [hne]
      simp [ht, htype.elim (fun h => Or.inl h) (fun h => Or.inr h), htype]
    · have h := pyEndsWith_prepend "uploads/" f.name ".pdf" hsfx
      simp only [extract_text_from_pdf, h, if_pos]

/-- Two file systems that agree on the PDF reader but differ on the image
reader. -/
def fsC10a : FS :=
  { pdfOpen := fun _ => .ok [.ok (some "pdf body")]
    imageOpen := fun _ => .error "imgA" }

def fsC10b : FS :=
  { pdfOpen := fun _ => .ok [.ok (some "pdf body")]
    imageOpen := fun _ => .ok () }

/-- A context whose upload is an image (PNG MIME type) named `photo.pdf`. -/
def ctxC10 : Ctx :=
  { fs := { pdfOpen := fun _ => .error "not a PDF", imageOpen := fun _ => .ok () }
    remote := fun _ _ => .ok "resp"
    text_input := ""
    uploaded_file := some ⟨"photo.pdf", "image/png"⟩ }

theorem c10_witness :
    extract_text_from_pdf fsC10a "x.pdf" = extract_text_from_pdf fsC10b "x.pdf" ∧
    (process_button ctxC10 =
        process_button
          { ctxC10 with uploaded_file := some ⟨"photo.pdf", "application/pdf"⟩ } ∧
      extract_text_from_pdf ctxC10.fs ("uploads/" ++ "photo.pdf") =
        (pdfBranch ctxC10.fs ("uploads/" ++ "photo.pdf")).map pyStrip) :=
  ⟨c10_branch_by_suffix.1 fsC10a fsC10b "x.pdf" rfl rfl,
   c10_branch_by_suffix.2.2 ctxC10 ⟨"photo.pdf", "image/png"⟩ rfl (Or.inl rfl) rfl⟩

/-! ### Lemmas: the JSON serializer round-trips through the parser -/

theorem char_valid_ranges (c : Char) :
    c.toNat < 0xd800 ∨ (0xdfff < c.toNat ∧ c.toNat < 0x110000) := by
  have h := c.valid
  simp [UInt32.isValidChar, Nat.isValidChar] at h
  exact h

theorem hexVal_hexDigitChar (n : Nat) (h : n < 16) :
    hexVal (hexDigitChar n) = some n := by
  interval_cases n <;> decide

theorem parseHex4_hexDigits4 (n : Nat) (h : n < 0x10000) (rest : List Char) :
    parseHex4 (hexDigits4 n ++ rest) = some (n, rest) := by
  have h1 : n / 4096 % 16 < 16 := Nat.mod_lt _ (by norm_num)
  have h2 : n / 256 % 16 < 16 := Nat.mod_lt _ (by norm_num)
  have h3 : n / 16 % 16 < 16 := Nat.mod_lt _ (by norm_num)
  have h4 : n % 16 < 16 := Nat.mod_lt _ (by norm_num)
  simp only [hexDigits4, List.cons_append, List.nil_append, parseHex4,
    hexVal_hexDigitChar _ h1, hexVal_hexDigitChar _ h2, hexVal_hexDigitChar _ h3,
    hexVal_hexDigitChar _ h4]
  congr 1
  congr 1
  omega

set_option maxHeartbeats 1000000 in
theorem escChar_length_pos (c : Char) : 1 ≤ (escChar c).length := by
  rw [escChar]
  split_ifs <;>
    simp only [escU, hexDigits4, List.length_cons, List.length_append,
      List.length_singleton, List.length_nil] <;>
    omega

theorem escList_length_ge (cs : List Char) : cs.length ≤ (escList cs).length := by
  induction cs with
  | nil => simp [escList]
  | cons c cs ih =>
    have := escChar_length_pos c
    simp only [escList, List.map_cons, List.flatten_cons, List.length_append,
      List.length_cons] at ih ⊢
    omega

theorem jsonFuel_pos (v : Json) : 1 ≤ jsonFuel v := by
  cases v <;> simp [jsonFuel]

theorem objFuel_pos (ms : JMembers) : 1 ≤ objFuel ms := by
  cases ms <;> simp [objFuel]

mutual
theorem jsonFuel_le_dumps : ∀ v : Json, jsonFuel v ≤ (dumpsJ v).length + 1
  | .str s => by
    have h := escList_length_ge s.data
    simp only [jsonFuel, dumpsJ, List.length_cons, List.length_append,
      List.length_singleton]
    omega
  | .obj ms => by
    have h := objFuel_le_dumps ms
    simp only [jsonFuel, dumpsJ, List.length_cons, List.length_append,
      List.length_singleton]
    omega
theorem objFuel_le_dumps : ∀ ms : JMembers, objFuel ms ≤ (dumpsM ms).length + 2
  | .nil => by simp [objFuel, dumpsM]
  | .cons k v ms => by
    have h1 := jsonFuel_le_dumps v
    have h2 := objFuel_le_dumps ms
    have h3 := escList_length_ge k.data
    cases ms <;>
      simp only [objFuel, dumpsM, List.length_cons, List.length_append,
        List.length_nil, List.nil_append] at h2 ⊢ <;>
      omega
end

/-- Single decoding steps of the string-literal parser, one per escape class. -/
theorem parseStrBody_quote (f : Nat) (X : List Char) :
    parseStrBody (f + 1) ('\\' :: '"' :: X) =
      (parseStrBody f X).map (fun p => ('"' :: p.1, p.2)) := rfl

theorem parseStrBody_backslash (f : Nat) (X : List Char) :
    parseStrBody (f + 1) ('\\' :: '\\' :: X) =
      (parseStrBody f X).map (fun p => ('\\' :: p.1, p.2)) := rfl

theorem parseStrBody_escB (f : Nat) (X : List Char) :
    parseStrBody (f + 1) ('\\' :: 'b' :: X) =
      (parseStrBody f X).map (fun p => ('\x08' :: p.1, p.2)) := rfl

theorem parseStrBody_escF (f : Nat) (X : List Char) :
    parseStrBody (f + 1) ('\\' :: 'f' :: X) =
      (parseStrBody f X).map (fun p => ('\x0c' :: p.1, p.2)) := rfl

theorem parseStrBody_escN (f : Nat) (X : List Char) :
    parseStrBody (f + 1) ('\\' :: 'n' :: X) =
      (parseStrBody f X).map (fun p => ('\n' :: p.1, p.2)) := rfl

theorem parseStrBody_escR (f : Nat) (X : List Char) :
    parseStrBody (f + 1) ('\\' :: 'r' :: X) =
      (parseStrBody f X).map (fun p => ('\r' :: p.1, p.2)) := rfl

theorem parseStrBody_escT (f : Nat) (X : List Char) :
    parseStrBody (f + 1) ('\\' :: 't' :: X) =
      (parseStrBody f X).map (fun p => ('\t' :: p.1, p.2)) := rfl

theorem parseStrBody_plain (c : Char) (h1 : c ≠ '"') (h2 : c ≠ '\\')
    (f : Nat) (X : List Char) :
    parseStrBody (f + 1) (c :: X) =
      (parseStrBody f X).map (fun p => (c :: p.1, p.2)) := by
  simp [parseStrBody, h1, h2]

theorem parseStrBody_u (n : Nat) (h : n < 0x10000)
    (hd1 : ¬ (0xd800 ≤ n ∧ n < 0xdc00)) (hd2 : ¬ (0xdc00 ≤ n ∧ n < 0xe000))
    (f : Nat) (X : List Char) :
    parseStrBody (f + 1) ('\\' :: ('u' :: (hexDigits4 n ++ X))) =
      (parseStrBody f X).map (fun p => (Char.ofNat n :: p.1, p.2)) := by
  have hu := parseHex4_hexDigits4 n h X
  simp [parseStrBody, hu, hd1, hd2]

theorem parseStrBody_uu (n m : Nat)
    (hn : 0xd800 ≤ n ∧ n < 0xdc00) (hm : 0xdc00 ≤ m ∧ m < 0xe000)
    (f : Nat) (X : List Char) :
    parseStrBody (f + 1)
        ('\\' :: ('u' :: (hexDigits4 n ++ ('\\' :: ('u' :: (hexDigits4 m ++ X)))))) =
      (parseStrBody f X).map
        (fun p => (Char.ofNat (0x10000 + (n - 0xd800) * 0x400 + (m - 0xdc00)) :: p.1, p.2)) := by
  have hu1 := parseHex4_hexDigits4 n (by omega) ('\\' :: ('u' :: (hexDigits4 m ++ X)))
  have hu2 := parseHex4_hexDigits4 m (by omega) X
  simp [parseStrBody, hu1, hu2, hn, hm]

/-- One decoding step of the string-literal parser: the escape sequence of one
character, followed by anything, decodes to that character. -/
theorem parseStrBody_escChar (c : Char) (f : Nat) (X : List Char) :
    parseStrBody (f + 1) (escChar c ++ X) =
      (parseStrBody f X).map (fun p => (c :: p.1, p.2)) := by
  by_cases h1 : c = '"'
  · subst h1; exact parseStrBody_quote f X
  by_cases h2 : c = '\\'
  · subst h2; exact parseStrBody_backslash f X
  by_cases h3 : c = '\x08'
  · subst h3; exact parseStrBody_escB f X
  by_cases h4 : c = '\x0c'
  · subst h4; exact parseStrBody_escF f X
  by_cases h5 : c = '\n'
  · subst h5; exact parseStrBody_escN f X
  by_cases h6 : c = '\r'
  · subst h6; exact parseStrBody_escR f X
  by_cases h7 : c = '\t'
  · subst h7; exact parseStrBody_escT f X
  by_cases h8 : c.toNat < 0x20
  · have he : escChar c ++ X = '\\' :: ('u' :: (hexDigits4 c.toNat ++ X)) := by
      simp only [escChar, if_neg h1, if_neg h2, if_neg h3, if_neg h4, if_neg h5,
        if_neg h6, if_neg h7, if_pos h8, escU, List.cons_append]
    rw [he, parseStrBody_u c.toNat (by omega) (by omega) (by omega), Char.ofNat_toNat]
  by_cases h9 : c.toNat < 0x7f
  · have he : escChar c ++ X = c :: X := by
      simp only [escChar, if_neg h1, if_neg h2, if_neg h3, if_neg h4, if_neg h5,
        if_neg h6, if_neg h7, if_neg h8, if_pos h9, List.cons_append, List.nil_append,
        List.singleton_append]
    rw [he, parseStrBody_plain c h1 h2]
  by_cases h10 : c.toNat < 0x10000
  · have hv := char_valid_ranges c
    have he : escChar c ++ X = '\\' :: ('u' :: (hexDigits4 c.toNat ++ X)) := by
      simp only [escChar, if_neg h1, if_neg h2, if_neg h3, if_neg h4, if_neg h5,
        if_neg h6, if_neg h7, if_neg h8, if_neg h9, if_pos h10, escU, List.cons_append]
    rw [he, parseStrBody_u c.toNat (by omega) (by omega) (by omega), Char.ofNat_toNat]
  · have hv := char_valid_ranges c
    have hcv : c.toNat < 0x110000 := by omega
    have he : escChar c ++ X =
        '\\' :: ('u' :: (hexDigits4 (0xd800 + (c.toNat - 0x10000) / 0x400) ++
          ('\\' :: ('u' :: (hexDigits4 (0xdc00 + (c.toNat - 0x10000) % 0x400) ++ X))))) := by
      simp only [escChar, if_neg h1, if_neg h2, if_neg h3, if_neg h4, if_neg h5,
        if_neg h6, if_neg h7, if_neg h8, if_neg h9, if_neg h10, escU,
        List.cons_append, List.append_assoc]
    rw [he, parseStrBody_uu (0xd800 + (c.toNat - 0x10000) / 0x400)
      (0xdc00 + (c.toNat - 0x10000) % 0x400) ⟨by omega, by omega⟩ ⟨by omega, by omega⟩]
    rw [show 0x10000 + (0xd800 + (c.toNat - 0x10000) / 0x400 - 0xd800) * 0x400 +
        (0xdc00 + (c.toNat - 0x10000) % 0x400 - 0xdc00) = c.toNat from by omega]
    rw [Char.ofNat_toNat]

/-- Parsing the escaped form of a character list (followed by the closing quote)
recovers exactly that list. -/
theorem parseStrBody_escList :
    ∀ (cs : List Char) (f : Nat) (rest : List Char), cs.length + 1 ≤ f →
      parseStrBody f (escList cs ++ ('"' :: rest)) = some (cs, rest) := by
  intro cs
  induction cs with
  | nil =>
    intro f rest hf
    cases f with
    | zero => omega
    | succ f => simp [escList, parseStrBody]
  | cons c cs ih =>
    intro f rest hf
    cases f with
    | zero => simp only [List.length_cons] at hf; omega
    | succ f =>
      have hf1 : cs.length + 1 ≤ f := by
        simp only [List.length_cons] at hf; omega
      have hesc : escList (c :: cs) ++ ('"' :: rest) =
          escChar c ++ (escList cs ++ ('"' :: rest)) := by
        simp [escList]
      rw [hesc, parseStrBody_escChar, ih f rest hf1]
      rfl

theorem skipWs_cons_nonws (c : Char) (l : List Char) (h : isWsChar c = false) :
    skipWs (c :: l) = c :: l := by
  simp [skipWs, h]

theorem skipWs_dumpsJ (v : Json) (X : List Char) :
    skipWs (dumpsJ v ++ X) = dumpsJ v ++ X := by
  cases v <;> simp [dumpsJ, skipWs, isWsChar]

theorem skipWs_dumpsM_cons (k : String) (v : Json) (ms : JMembers) (X : List Char) :
    skipWs (dumpsM (.cons k v ms) ++ X) = dumpsM (.cons k v ms) ++ X := by
  simp [dumpsM, skipWs, isWsChar]

/-- One-level unfolding of `dumpsM` on a two-or-more-member list, in appended
form, keeping the tail serialization folded. -/
theorem dumpsM_cons_cons_append (k : String) (v : Json) (k2 : String) (v2 : Json)
    (t2 : JMembers) (X : List Char) :
    dumpsM (.cons k v (.cons k2 v2 t2)) ++ X =
      '"' :: (escList k.data ++ ('"' :: (':' :: (' ' :: (dumpsJ v ++
        (',' :: (' ' :: (dumpsM (.cons k2 v2 t2) ++ X)))))))) := by
  conv_lhs => rw [dumpsM]
  simp [List.cons_append, List.append_assoc]

/-- With enough fuel, parsing the serialization of any value (resp. non-empty
member list followed by the closing brace) recovers it exactly. -/
theorem parse_dumps_aux :
    ∀ f : Nat,
      (∀ (v : Json) (rest : List Char), jsonFuel v ≤ f →
        parseVal f (dumpsJ v ++ rest) = some (v, rest)) ∧
      (∀ (ms : JMembers) (rest : List Char), ms ≠ .nil → objFuel ms ≤ f →
        parseMembers f (dumpsM ms ++ ('\x7d' :: rest)) = some (ms, rest)) := by
  intro f
  induction f with
  | zero =>
    constructor
    · intro v rest hv
      have := jsonFuel_pos v
      omega
    · intro ms rest hne hms
      have := objFuel_pos ms
      omega
  | succ f ih =>
    constructor
    · intro v rest hv
      cases v with
      | str s =>
        have hf : s.data.length + 1 ≤ f := by
          simp only [jsonFuel] at hv; omega
        have hb := parseStrBody_escList s.data f rest hf
        simp only [dumpsJ, List.cons_append, List.append_assoc,
          List.singleton_append, List.nil_append]
        simp [parseVal, skipWs, isWsChar, hb]
      | obj ms =>
        cases ms with
        | nil =>
          simp [dumpsJ, dumpsM, parseVal, skipWs, isWsChar]
        | cons k v1 tail =>
          have hms : objFuel (.cons k v1 tail) ≤ f := by
            simp only [jsonFuel] at hv; omega
          have hmem := ih.2 (.cons k v1 tail) rest (by intro h; cases h) hms
          simp only [dumpsJ, List.cons_append, List.append_assoc,
            List.singleton_append, List.nil_append]
          simp only [parseVal, skipWs_cons_nonws '\x7b' _ (by decide)]
          rw [skipWs_dumpsM_cons]
          have hhead : ∃ t, dumpsM (.cons k v1 tail) ++ ('\x7d' :: rest) = '"' :: t := by
            cases tail <;> simp [dumpsM, List.cons_append]
          obtain ⟨t, ht⟩ := hhead
          rw [ht] at hmem ⊢
          simp [hmem]
    · intro ms rest hne hms
      cases ms with
      | nil => exact absurd rfl hne
      | cons k v1 tail =>
        have hkf : k.data.length + 1 ≤ f := by
          have h1 := jsonFuel_pos v1
          have h2 := objFuel_pos tail
          simp only [objFuel] at hms
          omega
        have hvf : jsonFuel v1 ≤ f := by
          have h2 := objFuel_pos tail
          simp only [objFuel] at hms
          omega
        have htf : objFuel tail ≤ f := by
          have h1 := jsonFuel_pos v1
          simp only [objFuel] at hms
          omega
        cases tail with
        | nil =>
          simp only [dumpsM, List.cons_append, List.append_assoc, List.nil_append,
            List.singleton_append]
          simp only [parseMembers]
          rw [parseStrBody_escList k.data f _ hkf]
          simp only [skipWs_cons_nonws ':' _ (by decide)]
          have hsw : skipWs (' ' :: (dumpsJ v1 ++ ('\x7d' :: rest))) =
              dumpsJ v1 ++ ('\x7d' :: rest) := by
            rw [show skipWs (' ' :: (dumpsJ v1 ++ ('\x7d' :: rest))) =
                skipWs (dumpsJ v1 ++ ('\x7d' :: rest)) from by simp [skipWs, isWsChar]]
            exact skipWs_dumpsJ v1 _
          rw [hsw, ih.1 v1 _ hvf]
          simp [skipWs_cons_nonws '\x7d' _ (by decide)]
        | cons k2 v2 tail2 =>
          have hmem := ih.2 (.cons k2 v2 tail2) rest (by intro h; cases h) htf
          rw [dumpsM_cons_cons_append]
          simp only [parseMembers]
          rw [parseStrBody_escList k.data f _ hkf]
          simp only [skipWs_cons_nonws ':' _ (by decide)]
          have hsw : skipWs (' ' :: (dumpsJ v1 ++ (',' :: (' ' ::
              (dumpsM (.cons k2 v2 tail2) ++ ('\x7d' :: rest)))))) =
              dumpsJ v1 ++ (',' :: (' ' ::
                (dumpsM (.cons k2 v2 tail2) ++ ('\x7d' :: rest)))) := by
            rw [show skipWs (' ' :: (dumpsJ v1 ++ (',' :: (' ' ::
                (dumpsM (.cons k2 v2 tail2) ++ ('\x7d' :: rest)))))) =
                skipWs (dumpsJ v1 ++ (',' :: (' ' ::
                  (dumpsM (.cons k2 v2 tail2) ++ ('\x7d' :: rest))))) from by
              simp [skipWs, isWsChar]]
            exact skipWs_dumpsJ v1 _
          rw [hsw, ih.1 v1 _ hvf]
          simp only [skipWs_cons_nonws ',' _ (by decide)]
          have hsw2 : skipWs (' ' :: (dumpsM (.cons k2 v2 tail2) ++ ('\x7d' :: rest))) =
              dumpsM (.cons k2 v2 tail2) ++ ('\x7d' :: rest) := by
            rw [show skipWs (' ' :: (dumpsM (.cons k2 v2 tail2) ++ ('\x7d' :: rest))) =
                skipWs (dumpsM (.cons k2 v2 tail2) ++ ('\x7d' :: rest)) from by
              simp [skipWs, isWsChar]]
            exact skipWs_dumpsM_cons k2 v2 tail2 _
          rw [hsw2, hmem]

/-- `json.loads` of `json.dumps` recovers the serialized value. -/
theorem jsonLoads_dumps (v : Json) : jsonLoads (jsonDumps v) = some v := by
  have hfuel : jsonFuel v ≤ (dumpsJ v).length + 1 := jsonFuel_le_dumps v
  have h := (parse_dumps_aux ((dumpsJ v).length + 1)).1 v [] hfuel
  rw [List.append_nil] at h
  simp only [jsonLoads, jsonDumps]
  rw [h]
  simp [skipWs]

/-! ### Claim C3 -/

/-- C3: whenever the remote call raises, `extract_json_from_text` returns (it
does not raise — its model is a total function into strings) the serialized
fallback object; that string parses back (under the `json.loads` model) to the
fallback value, whose `document_type` field is `"error"`. -/
theorem c3_error_fallback_is_json (remote : String → String → Except String String)
    (text e : String) (h : remote prompt text = .error e) :
    extract_json_from_text remote text = jsonDumps (errJson e) ∧
    jsonLoads (extract_json_from_text remote text) = some (errJson e) ∧
    findField (errJson e) "document_type" = some (.str "error") := by
  have h1 : extract_json_from_text remote text = jsonDumps (errJson e) := by
    simp [extract_json_from_text, h]
  refine ⟨h1, ?_, rfl⟩
  rw [h1]
  exact jsonLoads_dumps (errJson e)

theorem c3_witness :
    extract_json_from_text (fun _ _ => .error "boom") "some text" =
      jsonDumps (errJson "boom") ∧
    jsonLoads (extract_json_from_text (fun _ _ => .error "boom") "some text") =
      some (errJson "boom") ∧
    findField (errJson "boom") "document_type" = some (.str "error") :=
  c3_error_fallback_is_json (fun _ _ => .error "boom") "some text" "boom" rfl

/-! ### Claim C4 -/

/-- C4: a response string the `json.loads` model rejects makes the display step
fall back to showing the raw text; no exception escapes (the model of the
`try`-guarded display is a total function). -/
theorem c4_invalid_json_falls_back (s : String) (h : jsonLoads s = none) :
    displayResult s = .rawText s := by
  simp [displayResult, h]

theorem c4_witness :
    jsonLoads "This is not JSON." = none ∧
    displayResult "This is not JSON." = .rawText "This is not JSON." :=
  ⟨rfl, c4_invalid_json_falls_back "This is not JSON." rfl⟩

/-! ### Claim C6 -/

set_option maxHeartbeats 4000000 in
set_option maxRecDepth 100000 in
/-- C6, counterexample: the rules section of the prompt enumerates twelve
document-type rule lines, not eleven (the claim itself lists twelve names), and
the compliance-status section enumerates six bullets, not five (five document
outcomes plus the `N/A` fallback for non-document text). -/
theorem c6_counterexample :
    docTypeRuleLines.length = 12 ∧
    complianceBullets.length = 6 ∧
    ¬ (docTypeRuleLines.length = 11 ∧ complianceBullets.length = 5) := by
  refine ⟨by decide, by decide, by decide⟩

set_option maxHeartbeats 4000000 in
set_option maxRecDepth 100000 in
/-- C6 (amended): the fixed prompt's document-type section enumerates exactly
twelve rule lines — one per claimed type name, in order, each carrying an
`Extract:` field list — and its compliance-status section enumerates exactly
six bullets (five document outcomes plus the `N/A` non-document fallback). -/
theorem c6_prompt_enumeration_amended :
    docTypeRuleLines.length = 12 ∧
    complianceBullets.length = 6 ∧
    twelveTypes.length = 12 ∧
    (twelveTypes.zip docTypeRuleLines).all
      (fun p => p.1.data.isPrefixOf (p.2.drop 2) &&
        seqContains "Extract:".data p.2) = true := by
  refine ⟨by decide, by decide, by decide, by decide⟩

end GovDoc
